import Mathlib

/-!
Verification development for the `api-web-negocios` multi-tenant Express/Firestore
backend (`src/server.js`).  The file shallowly embeds the document-store state and
the HTTP handlers that the specification talks about, and proves (or refutes) the
specification's claims against that embedding.

Modelling conventions:
* Firestore documents are association lists from field names to `Value`s
  (a JSON-like value type with an explicit server-timestamp constructor).
* A `Store` holds the `negocios` root collection (tenant documents) and the
  tenant-scoped subcollections, keyed by `(tenantId, collectionName)`.
  Firestore subcollections exist independently of the parent document, which
  the model reflects: writing into a subcollection of a nonexistent tenant
  document succeeds, exactly as in Firestore.
* Firestore `update` on a missing document throws (the handler's catch turns
  this into HTTP 500); the model returns `none` in that case.
  `delete` always succeeds, `add` inserts under a freshly generated id which
  the model takes as an explicit argument, and `set` overwrites the document.
* Nondeterminism (generated ids, `Math.random()`, server timestamps, `Date.now()`)
  is modelled by explicit parameters.
-/

namespace ApiWeb

/-- JSON-like Firestore field values.  `time n` stands for a server timestamp. -/
inductive Value where
  | str : String → Value
  | num : Int → Value
  | bool : Bool → Value
  | time : Nat → Value
  | obj : List (String × Value) → Value

/-- A Firestore document: an association list of top-level fields. -/
abbrev Doc := List (String × Value)

/-- First-match lookup in an association list. -/
def lookupA {α β : Type} [DecidableEq α] : List (α × β) → α → Option β
  | [], _ => none
  | (k, v) :: rest, key => if k = key then some v else lookupA rest key

/-- Set a key in an association list, replacing the first occurrence in place
(or appending when absent).  This is the effect of setting one top-level field
of a JS object / of a Firestore `update` on one field. -/
def insertA {α β : Type} [DecidableEq α] : List (α × β) → α → β → List (α × β)
  | [], key, v => [(key, v)]
  | (k, w) :: rest, key, v =>
      if k = key then (key, v) :: rest else (k, w) :: insertA rest key v

/-- Remove every binding of a key from an association list (Firestore document
deletion in a collection). -/
def eraseA {α β : Type} [DecidableEq α] (l : List (α × β)) (key : α) : List (α × β) :=
  l.filter (fun kv => kv.1 ≠ key)

theorem lookupA_insertA_self {α β : Type} [DecidableEq α]
    (l : List (α × β)) (k : α) (v : β) : lookupA (insertA l k v) k = some v := by
  induction l with
  | nil => simp [insertA, lookupA]
  | cons hd tl ih =>
      by_cases h : hd.1 = k
      · simp [insertA, h, lookupA]
      · simp [insertA, h, lookupA, ih]

theorem lookupA_insertA_ne {α β : Type} [DecidableEq α]
    (l : List (α × β)) (k k' : α) (v : β) (h : k' ≠ k) :
    lookupA (insertA l k v) k' = lookupA l k' := by
  have hk' : ¬k = k' := fun e => h e.symm
  induction l with
  | nil => simp [insertA, lookupA, hk']
  | cons hd tl ih =>
      by_cases hk : hd.1 = k
      · subst hk
        simp [insertA, lookupA, hk']
      · simp only [insertA, hk, if_neg hk, lookupA]
        by_cases hx : hd.1 = k'
        · simp [hx]
        · simp [hx, ih]

theorem eraseA_cons {α β : Type} [DecidableEq α]
    (hd : α × β) (tl : List (α × β)) (k : α) :
    eraseA (hd :: tl) k = if hd.1 = k then eraseA tl k else hd :: eraseA tl k := by
  by_cases h : hd.1 = k <;> simp [eraseA, h]

theorem lookupA_eraseA_self {α β : Type} [DecidableEq α]
    (l : List (α × β)) (k : α) : lookupA (eraseA l k) k = none := by
  induction l with
  | nil => simp [eraseA, lookupA]
  | cons hd tl ih =>
      by_cases h : hd.1 = k
      · simpa [eraseA, h] using ih
      · simpa [eraseA, h, lookupA] using ih

theorem lookupA_eraseA_ne {α β : Type} [DecidableEq α]
    (l : List (α × β)) (k k' : α) (h : k' ≠ k) :
    lookupA (eraseA l k) k' = lookupA l k' := by
  induction l with
  | nil => simp [eraseA, lookupA]
  | cons hd tl ih =>
      rw [eraseA_cons]
      by_cases hk : hd.1 = k
      · have hne : ¬hd.1 = k' := by rw [hk]; exact fun e => h e.symm
        rw [if_pos hk, ih]
        simp [lookupA, hne]
      · rw [if_neg hk]
        simp [lookupA, ih]

theorem eraseA_eraseA {α β : Type} [DecidableEq α]
    (l : List (α × β)) (k : α) : eraseA (eraseA l k) k = eraseA l k := by
  simp [eraseA, List.filter_filter]

theorem insertA_insertA_self {α β : Type} [DecidableEq α]
    (l : List (α × β)) (k : α) (v v' : β) :
    insertA (insertA l k v) k v' = insertA l k v' := by
  induction l with
  | nil => simp [insertA]
  | cons hd tl ih =>
      by_cases h : hd.1 = k
      · simp [insertA, h]
      · simp [insertA, h, ih]

/-- Effect of the JS object spread `{...d, f1: v1, ..., fn: vn}` followed by a
Firestore `update`: each listed top-level field overwrites the corresponding
field of `d`; later duplicates win, all other fields are untouched. -/
def applyUpdate (d : Doc) (fields : Doc) : Doc :=
  fields.foldl (fun acc kv => insertA acc kv.1 kv.2) d

theorem applyUpdate_nil (d : Doc) : applyUpdate d [] = d := rfl

theorem applyUpdate_cons (d : Doc) (k : String) (v : Value) (fs : Doc) :
    applyUpdate d ((k, v) :: fs) = applyUpdate (insertA d k v) fs := rfl

theorem lookupA_applyUpdate_notin (d fs : Doc) (k : String)
    (h : k ∉ fs.map Prod.fst) :
    lookupA (applyUpdate d fs) k = lookupA d k := by
  induction fs generalizing d with
  | nil => rfl
  | cons hd tl ih =>
      simp only [List.map_cons, List.mem_cons] at h
      push_neg at h
      have hstep : applyUpdate d (hd :: tl) = applyUpdate (insertA d hd.1 hd.2) tl := rfl
      rw [hstep, ih _ h.2, lookupA_insertA_ne _ _ _ _ h.1]

theorem lookupA_applyUpdate_in (d fs : Doc) (k : String) (v : Value)
    (hnd : (fs.map Prod.fst).Nodup) (h : lookupA fs k = some v) :
    lookupA (applyUpdate d fs) k = some v := by
  induction fs generalizing d with
  | nil => simp [lookupA] at h
  | cons hd tl ih =>
      simp only [List.map_cons, List.nodup_cons] at hnd
      have hstep : applyUpdate d (hd :: tl) = applyUpdate (insertA d hd.1 hd.2) tl := rfl
      by_cases hk : hd.1 = k
      · have hv : v = hd.2 := by
          simp [lookupA, hk] at h
          exact h.symm
        subst hv
        rw [hstep, lookupA_applyUpdate_notin]
        · rw [← hk, lookupA_insertA_self]
        · rw [← hk]; exact hnd.1
      · have h' : lookupA tl k = some v := by simpa [lookupA, hk] using h
        rw [hstep, ih _ hnd.2 h']

/-!  ## The document store

`negocioDocs` is the root `negocios` collection (tenant id → tenant document).
`subcolls` maps `(tenantId, collectionName)` to the documents of that
subcollection (document id → document).  An absent entry is an empty
subcollection. -/

/-- A tenant-scoped subcollection: document id → document fields. -/
abbrev Coll := List (String × Doc)

structure Store where
  negocioDocs : List (String × Doc)
  subcolls : List ((String × String) × Coll)

/-- `db.collection('negocios').doc(tid).get()` — `none` models `!doc.exists`. -/
def Store.getNegocio (s : Store) (tid : String) : Option Doc :=
  lookupA s.negocioDocs tid

/-- `db.collection('negocios').doc(tid).set(d)` — overwrite the whole document. -/
def Store.setNegocio (s : Store) (tid : String) (d : Doc) : Store :=
  { s with negocioDocs := insertA s.negocioDocs tid d }

/-- `db.collection('negocios').doc(tid).update(fields)`.  Firestore `update`
throws NOT_FOUND when the document does not exist (the handler's catch turns
that into HTTP 500); the model returns `none` in that case. -/
def Store.updateNegocio (s : Store) (tid : String) (fields : Doc) : Option Store :=
  match lookupA s.negocioDocs tid with
  | none => none
  | some d => some (s.setNegocio tid (applyUpdate d fields))

/-- `db.collection('negocios').doc(tid).delete()` — always succeeds. -/
def Store.deleteNegocioDoc (s : Store) (tid : String) : Store :=
  { s with negocioDocs := eraseA s.negocioDocs tid }

/-- `db.collection('negocios').doc(tid).collection(c).get()` — the snapshot of a
subcollection (empty when no document was ever written under it). -/
def Store.getColl (s : Store) (tid c : String) : Coll :=
  (lookupA s.subcolls (tid, c)).getD []

def Store.setColl (s : Store) (tid c : String) (docs : Coll) : Store :=
  { s with subcolls := insertA s.subcolls (tid, c) docs }

/-- `....collection(c).add(d)` — append under a freshly generated id, supplied
here as the explicit argument `id`.  Note that Firestore performs no check that
the parent tenant document exists. -/
def Store.addDoc (s : Store) (tid c id : String) (d : Doc) : Store :=
  s.setColl tid c (insertA (s.getColl tid c) id d)

/-- `....collection(c).doc(id).update(fields)` — `none` when the document is
missing (Firestore throws NOT_FOUND, surfaced by the handlers as HTTP 500). -/
def Store.updateDocIn (s : Store) (tid c id : String) (fields : Doc) : Option Store :=
  match lookupA (s.getColl tid c) id with
  | none => none
  | some d => some (s.setColl tid c (insertA (s.getColl tid c) id (applyUpdate d fields)))

/-- `....collection(c).doc(id).delete()` — unconditional, always succeeds. -/
def Store.deleteDocIn (s : Store) (tid c id : String) : Store :=
  s.setColl tid c (eraseA (s.getColl tid c) id)

theorem getColl_setColl_self (s : Store) (tid c : String) (docs : Coll) :
    (s.setColl tid c docs).getColl tid c = docs := by
  simp [Store.getColl, Store.setColl, lookupA_insertA_self]

theorem getColl_setColl_ne (s : Store) (tid c tid' c' : String) (docs : Coll)
    (h : (tid', c') ≠ (tid, c)) :
    (s.setColl tid c docs).getColl tid' c' = s.getColl tid' c' := by
  simp [Store.getColl, Store.setColl, lookupA_insertA_ne _ _ _ _ h]

theorem negocioDocs_setColl (s : Store) (tid c : String) (docs : Coll) :
    (s.setColl tid c docs).negocioDocs = s.negocioDocs := rfl

theorem getNegocio_deleteNegocioDoc_self (s : Store) (tid : String) :
    (s.deleteNegocioDoc tid).getNegocio tid = none := by
  simp [Store.getNegocio, Store.deleteNegocioDoc, lookupA_eraseA_self]

/-!  ## HTTP handler responses -/

/-- The JSON responses the embedded handlers can produce, tagged with the HTTP
status they are sent with in `server.js`. -/
inductive Resp where
  /-- `res.json(\x7b success: true \x7d)` (HTTP 200). -/
  | ok : Resp
  /-- `res.json(\x7b success: true, id \x7d)` after an `add` (HTTP 200). -/
  | okId : String → Resp
  /-- Login success `res.json(\x7b success, negocioID, nombre \x7d)` (HTTP 200). -/
  | okLogin : String → Option Value → Resp
  /-- Tenant creation success: the generated `negocioID`, `user` and `pin`
  returned in the response body (HTTP 200). -/
  | okCreated : String → String → String → Resp
  /-- `res.json(negocioDoc.data())` (HTTP 200). -/
  | okConfig : Doc → Resp
  /-- A listing response `res.json(\x7b items \x7d)`, each item `\x7b id: doc.id, ...doc.data() \x7d`. -/
  | okList : List (String × Doc) → Resp
  /-- HTTP 400, missing required body fields. -/
  | badRequest : Resp
  /-- HTTP 404. -/
  | notFound : Resp
  /-- HTTP 401. -/
  | unauthorized : Resp
  /-- HTTP 500 from the catch-all handler (e.g. Firestore `update` on a missing
  document). -/
  | serverError : Resp

/-- Extract a string value, for JS strict equality `storedValue === suppliedString`:
only a stored string can compare equal to a supplied string. -/
def asStr : Option Value → Option String
  | some (Value.str s) => some s
  | _ => none

/-- `negocioData.admin?.[k]` — optional chaining through the `admin` map field. -/
def adminField (d : Doc) (k : String) : Option Value :=
  match lookupA d "admin" with
  | some (Value.obj a) => lookupA a k
  | _ => none

/-!  ## Authentication — `POST /api/auth/login` (`src/server.js` 275–305, 912–942;
the two variants are textually identical). -/

/-- The login handler.  Requires `user`, `pin`, `negocioID` (JS falsiness on the
supplied strings, so empty string → 400); 404 when the tenant document does not
exist; success iff the stored `admin.user` and `admin.pin` both strictly equal
the supplied strings; otherwise a generic 401.  The stored `activo` flag is
never consulted. -/
def login (s : Store) (user pin negocioID : String) : Resp :=
  if user = "" ∨ pin = "" ∨ negocioID = "" then Resp.badRequest
  else
    match s.getNegocio negocioID with
    | none => Resp.notFound
    | some d =>
        if asStr (adminField d "user") = some user ∧ asStr (adminField d "pin") = some pin
        then Resp.okLogin negocioID (lookupA d "nombre")
        else Resp.unauthorized

/-!  ## Tenant config and sections (`src/server.js` 310–388). -/

/-- `GET /api/:negocioID/config`. -/
def getConfig (s : Store) (tid : String) : Resp :=
  match s.getNegocio tid with
  | none => Resp.notFound
  | some d => Resp.okConfig d

/-- `PUT /api/:negocioID/secciones` — `update(\x7b seccionesActivas: secciones,
updatedAt \x7d)`: the whole toggle map is one top-level field value, so it is
replaced wholesale, not merged. -/
def putSecciones (s : Store) (tid : String) (secciones : Value) (now : Nat) :
    Resp × Store :=
  match s.updateNegocio tid [("seccionesActivas", secciones), ("updatedAt", Value.time now)] with
  | none => (Resp.serverError, s)
  | some s' => (Resp.ok, s')

/-!  ## Nested resource CRUD (`src/server.js` 393–757).

The six subcollections share one handler shape; the generic functions below are
instantiated at the collection names used by the routes. -/

/-- `POST /api/:negocioID/<coll>` — `add(\x7b ...body, createdAt \x7d)`.  No check
that the tenant document exists. -/
def createInColl (s : Store) (tid c id : String) (body : Doc) (now : Nat) :
    Resp × Store :=
  (Resp.okId id, s.addDoc tid c id (insertA body "createdAt" (Value.time now)))

/-- `PUT /api/:negocioID/<coll>/:id` — `update(\x7b ...body, updatedAt \x7d)`. -/
def updateInColl (s : Store) (tid c id : String) (body : Doc) (now : Nat) :
    Resp × Store :=
  match s.updateDocIn tid c id (insertA body "updatedAt" (Value.time now)) with
  | none => (Resp.serverError, s)
  | some s' => (Resp.ok, s')

/-- `DELETE /api/:negocioID/<coll>/:id` — unconditional `delete()`. -/
def removeFromColl (s : Store) (tid c id : String) : Resp × Store :=
  (Resp.ok, s.deleteDocIn tid c id)

def createProducto (s : Store) (tid id : String) (body : Doc) (now : Nat) :=
  createInColl s tid "productos" id body now

def updateProducto (s : Store) (tid id : String) (body : Doc) (now : Nat) :=
  updateInColl s tid "productos" id body now

def deleteProducto (s : Store) (tid id : String) : Resp × Store :=
  removeFromColl s tid "productos" id

/-- `GET /api/:negocioID/productos` (variant 1, `src/server.js` 393–409): plain
snapshot, no `orderBy`, no filter — returned in store order. -/
def listProductos (s : Store) (tid : String) : Resp :=
  Resp.okList (s.getColl tid "productos")

/-- `POST /api/:negocioID/pedidos` (`src/server.js` 724–740) — the spread is
followed by `estado: 'pendiente'` and `fechaCreacion`, so both are system-set
even when the caller supplied them. -/
def createPedido (s : Store) (tid id : String) (body : Doc) (now : Nat) :
    Resp × Store :=
  (Resp.okId id,
    s.addDoc tid "pedidos" id
      (insertA (insertA body "estado" (Value.str "pendiente")) "fechaCreacion" (Value.time now)))

/-- `PUT /api/:negocioID/pedidos/:pedidoID` (`src/server.js` 742–757) — the
handler destructures only `estado` from the body and updates
`\x7b estado, updatedAt \x7d`.  A missing `estado` is `undefined`, which the
Firestore client rejects (→ 500), modelled as the `none` branch. -/
def putPedido (s : Store) (tid id : String) (body : Doc) (now : Nat) :
    Resp × Store :=
  match lookupA body "estado" with
  | none => (Resp.serverError, s)
  | some v =>
      match s.updateDocIn tid "pedidos" id [("estado", v), ("updatedAt", Value.time now)] with
      | none => (Resp.serverError, s)
      | some s' => (Resp.ok, s')

/-!  ## Ordered listings (`orderBy` queries)

`GET .../servicios | testimonios | casos-exito | galeria` run
`orderBy('orden', 'asc')`; `GET .../pedidos` runs
`orderBy('fechaCreacion', 'desc')`.  A Firestore `orderBy(f)` excludes documents
that lack the field `f`; the model restricts attention to numeric keys (the
claims and the handlers only ever use numeric `orden` values and timestamps). -/

/-- Stable insertion into a list sorted by an integer key. -/
def insertByKey {α : Type} (key : α → Int) (x : α) : List α → List α
  | [] => [x]
  | y :: ys => if key x ≤ key y then x :: y :: ys else y :: insertByKey key x ys

/-- Stable insertion sort by an integer key, ascending. -/
def sortByKey {α : Type} (key : α → Int) : List α → List α
  | [] => []
  | x :: xs => insertByKey key x (sortByKey key xs)

theorem perm_insertByKey {α : Type} (key : α → Int) (x : α) (l : List α) :
    List.Perm (insertByKey key x l) (x :: l) := by
  induction l with
  | nil => simp [insertByKey]
  | cons y ys ih =>
      by_cases h : key x ≤ key y
      · simp [insertByKey, h]
      · simp only [insertByKey, if_neg h]
        exact (ih.cons y).trans (List.Perm.swap x y ys)

theorem perm_sortByKey {α : Type} (key : α → Int) (l : List α) :
    List.Perm (sortByKey key l) l := by
  induction l with
  | nil => simp [sortByKey]
  | cons x xs ih =>
      exact (perm_insertByKey key x (sortByKey key xs)).trans (ih.cons x)

theorem pairwise_insertByKey {α : Type} (key : α → Int) (x : α) (l : List α)
    (h : l.Pairwise (fun a b => key a ≤ key b)) :
    (insertByKey key x l).Pairwise (fun a b => key a ≤ key b) := by
  induction l with
  | nil => simp [insertByKey]
  | cons y ys ih =>
      by_cases hxy : key x ≤ key y
      · simp only [insertByKey, if_pos hxy]
        refine List.Pairwise.cons ?_ h
        intro b hb
        rcases List.mem_cons.mp hb with hb | hb
        · exact hb ▸ hxy
        · exact le_trans hxy (List.rel_of_pairwise_cons h hb)
      · have hyx : key y ≤ key x := le_of_not_le hxy
        simp only [insertByKey, if_neg hxy]
        refine List.Pairwise.cons ?_ (ih h.of_cons)
        intro b hb
        have := (perm_insertByKey key x ys).mem_iff.mp hb
        rcases List.mem_cons.mp this with hb' | hb'
        · exact hb' ▸ hyx
        · exact List.rel_of_pairwise_cons h hb'

theorem pairwise_sortByKey {α : Type} (key : α → Int) (l : List α) :
    (sortByKey key l).Pairwise (fun a b => key a ≤ key b) := by
  induction l with
  | nil => simp [sortByKey]
  | cons x xs ih => exact pairwise_insertByKey key x _ ih

/-- The numeric `orden` field of a document, when present. -/
def ordenOf (d : Doc) : Option Int :=
  match lookupA d "orden" with
  | some (Value.num n) => some n
  | _ => none

/-- The `fechaCreacion` server timestamp of a document, when present. -/
def fechaOf (d : Doc) : Option Int :=
  match lookupA d "fechaCreacion" with
  | some (Value.time n) => some (Int.ofNat n)
  | _ => none

/-- `orderBy('orden','asc').get()` over a subcollection: documents lacking a
numeric `orden` are excluded, the rest are sorted ascending by it. -/
def listOrdenAsc (s : Store) (tid c : String) : List (String × Doc) :=
  sortByKey (fun kv => (ordenOf kv.2).getD 0)
    ((s.getColl tid c).filter (fun kv => (ordenOf kv.2).isSome))

/-- `GET /api/:negocioID/servicios` (`src/server.js` 459–475). -/
def listServicios (s : Store) (tid : String) : Resp :=
  Resp.okList (listOrdenAsc s tid "servicios")

/-- `GET /api/:negocioID/testimonios` (`src/server.js` 525–541). -/
def listTestimonios (s : Store) (tid : String) : Resp :=
  Resp.okList (listOrdenAsc s tid "testimonios")

/-- `GET /api/:negocioID/casos-exito` (`src/server.js` 591–607). -/
def listCasosExito (s : Store) (tid : String) : Resp :=
  Resp.okList (listOrdenAsc s tid "casosExito")

/-- `GET /api/:negocioID/galeria` (`src/server.js` 657–673). -/
def listGaleria (s : Store) (tid : String) : Resp :=
  Resp.okList (listOrdenAsc s tid "galeria")

/-- `orderBy('fechaCreacion','desc').get()`: sort by the negated timestamp. -/
def listFechaDesc (s : Store) (tid c : String) : List (String × Doc) :=
  sortByKey (fun kv => -((fechaOf kv.2).getD 0))
    ((s.getColl tid c).filter (fun kv => (fechaOf kv.2).isSome))

/-- `GET /api/:negocioID/pedidos` (`src/server.js` 706–722). -/
def listPedidos (s : Store) (tid : String) : Resp :=
  Resp.okList (listFechaDesc s tid "pedidos")

/-!  ## Tenant deletion — `DELETE /api/super-admin/negocios/:negocioID`
(`src/server.js` 250–270). -/

/-- The six subcollection names the cascade iterates over, in source order. -/
def cascadeCollections : List String :=
  ["productos", "servicios", "testimonios", "casosExito", "galeria", "pedidos"]

/-- One loop iteration of the cascade: read the subcollection snapshot, then
batch-delete each of its documents. -/
def clearColl (s : Store) (tid c : String) : Store :=
  ((s.getColl tid c).map Prod.fst).foldl (fun acc id => acc.deleteDocIn tid c id) s

/-- The cascade over the six subcollections, before the tenant document is
touched. -/
def deleteNegocioCascade (s : Store) (tid : String) : Store :=
  cascadeCollections.foldl (fun acc c => clearColl acc tid c) s

/-- The whole handler body: clear the six subcollections, then — last — delete
the tenant document itself. -/
def deleteNegocio (s : Store) (tid : String) : Resp × Store :=
  (Resp.ok, (deleteNegocioCascade s tid).deleteNegocioDoc tid)

/-!  ## Tenant creation — `POST /api/super-admin/negocios`
(`src/server.js` 161–231). -/

/-- JS `String.prototype.toLowerCase` restricted to ASCII and the Latin-1
letters (the simple Unicode case mapping adds 32 for `A`–`Z` and for `À`–`Þ`
except `×`), which covers every character the handlers see in practice. -/
def jsCharToLower (c : Char) : Char :=
  if ('A' ≤ c ∧ c ≤ 'Z') ∨ (0xC0 ≤ c.toNat ∧ c.toNat ≤ 0xDE ∧ c.toNat ≠ 0xD7)
  then Char.ofNat (c.toNat + 32) else c

def jsToLowerCase (s : String) : String := String.mk (s.data.map jsCharToLower)

/-- The character class `[a-z0-9]` of the regex in
`nombreNegocio.toLowerCase().replace(/[^a-z0-9]/g, '')`. -/
def isLowerAlnum (c : Char) : Bool :=
  ('a' ≤ c && c ≤ 'z') || ('0' ≤ c && c ≤ '9')

/-- `.replace(/[^a-z0-9]/g, '')`: every character outside `[a-z0-9]` is deleted
outright — accented letters included, since `é`, `á`, … are not in `[a-z0-9]`. -/
def stripNonAlnum (s : String) : String := String.mk (s.data.filter isLowerAlnum)

/-- `.substring(0, 10)`. -/
def substring10 (s : String) : String := String.mk (s.data.take 10)

/-- The admin username generator (`src/server.js` 171):
`nombreNegocio.toLowerCase().replace(/[^a-z0-9]/g, '').substring(0, 10) || 'user' + Date.now()`. -/
def generateUser (nombreNegocio : String) (nowMs : Nat) : String :=
  let u := substring10 (stripNonAlnum (jsToLowerCase nombreNegocio))
  if u = "" then "user" ++ toString nowMs else u

/-- The numeric value of `Math.floor(1000 + Math.random() * 9000)`
(`src/server.js` 172): `k % 9000` stands for `Math.floor(Math.random() * 9000)`,
the uniformly distributed integer in `[0, 9000)`. -/
def generatePinNat (k : Nat) : Nat := 1000 + k % 9000

/-- The generated PIN string: `.toString()` of the value above. -/
def generatePin (k : Nat) : String := toString (generatePinNat k)

/-- The seeded tenant document written by `set` (`src/server.js` 175–214). -/
def defaultNegocioDoc (nombreNegocio email user pin : String) (now : Nat) : Doc :=
  [ ("nombre", Value.str nombreNegocio),
    ("slogan", Value.str "Los mejores productos al mejor precio"),
    ("admin", Value.obj
      [ ("user", Value.str user), ("pin", Value.str pin), ("email", Value.str email) ]),
    ("colores", Value.obj
      [ ("primario", Value.str "#667eea"), ("secundario", Value.str "#10B981") ]),
    ("contacto", Value.obj
      [ ("telefono", Value.str ""), ("whatsapp", Value.str ""),
        ("email", Value.str email), ("direccion", Value.str ""),
        ("redesSociales", Value.obj
          [ ("facebook", Value.str ""), ("instagram", Value.str "") ]) ]),
    ("contenido", Value.obj
      [ ("sobreNosotros", Value.str "Somos una empresa dedicada a ofrecer los mejores productos."),
        ("mision", Value.str ""), ("vision", Value.str "") ]),
    ("seccionesActivas", Value.obj
      [ ("hero", Value.bool true), ("servicios", Value.bool true),
        ("nosotros", Value.bool true), ("casosExito", Value.bool true),
        ("testimonios", Value.bool true), ("galeria", Value.bool true),
        ("contacto", Value.bool true) ]),
    ("activo", Value.bool true),
    ("briefCompletado", Value.bool false),
    ("createdAt", Value.time now) ]

/-- The creation handler.  The generated `negocioID`
(`'neg_' + Math.random().toString(36).substring(2, 15)`) is taken as the
explicit argument `negocioID`, and the PIN randomness as `randPin`. -/
def createNegocio (s : Store) (nombreNegocio email negocioID : String)
    (randPin nowMs : Nat) : Resp × Store :=
  if nombreNegocio = "" ∨ email = "" then (Resp.badRequest, s)
  else
    let user := generateUser nombreNegocio nowMs
    let pin := generatePin randPin
    (Resp.okCreated negocioID user pin,
      s.setNegocio negocioID (defaultNegocioDoc nombreNegocio email user pin nowMs))

/-!  ### Spec-worded username derivation, for comparison

The spec describes the derivation as "lowercased, diacritics stripped,
non-alphanumeric collapsed to separators, length-capped".  The definitions
below follow those words (they are NOT a translation of the source) so that the
code's derivation can be compared against them. -/

/-- Transliterate a Latin-1 accented lowercase letter to its base letter
("diacritics stripped", per the spec's words). -/
def stripDiacritic (c : Char) : Char :=
  if c = 'á' ∨ c = 'à' ∨ c = 'â' ∨ c = 'ä' ∨ c = 'ã' then 'a'
  else if c = 'é' ∨ c = 'è' ∨ c = 'ê' ∨ c = 'ë' then 'e'
  else if c = 'í' ∨ c = 'ì' ∨ c = 'î' ∨ c = 'ï' then 'i'
  else if c = 'ó' ∨ c = 'ò' ∨ c = 'ô' ∨ c = 'ö' ∨ c = 'õ' then 'o'
  else if c = 'ú' ∨ c = 'ù' ∨ c = 'û' ∨ c = 'ü' then 'u'
  else if c = 'ñ' then 'n' else if c = 'ç' then 'c'
  else c

/-- Collapse runs of `'-'` to a single `'-'`. -/
def squashDashes : List Char → List Char
  | [] => []
  | [c] => [c]
  | a :: b :: rest =>
      if a = '-' ∧ b = '-' then squashDashes (b :: rest)
      else a :: squashDashes (b :: rest)

/-- Username derivation as the spec words it: lowercase, strip diacritics,
collapse non-alphanumeric characters to separators, cap the length. -/
def specDeriveUser (nombre : String) : String :=
  String.mk
    ((squashDashes
        (((nombre.data.map jsCharToLower).map stripDiacritic).map
          (fun c => if isLowerAlnum c then c else '-'))).take 10)

/-!  ## Shared lemmas about the store operations -/

theorem setColl_setColl (s : Store) (tid c : String) (x y : Coll) :
    (s.setColl tid c x).setColl tid c y = s.setColl tid c y := by
  simp [Store.setColl, insertA_insertA_self]

theorem getColl_deleteDocIn_self (s : Store) (tid c id : String) :
    (s.deleteDocIn tid c id).getColl tid c = eraseA (s.getColl tid c) id :=
  getColl_setColl_self s tid c _

theorem deleteDocIn_deleteDocIn (s : Store) (tid c id : String) :
    (s.deleteDocIn tid c id).deleteDocIn tid c id = s.deleteDocIn tid c id := by
  have h : (s.deleteDocIn tid c id).deleteDocIn tid c id =
      (s.deleteDocIn tid c id).setColl tid c
        (eraseA ((s.deleteDocIn tid c id).getColl tid c) id) := rfl
  rw [h, getColl_deleteDocIn_self, eraseA_eraseA]
  exact setColl_setColl s tid c _ _

theorem getColl_foldl_deleteDocIn (ids : List String) (s : Store) (tid c : String) :
    (ids.foldl (fun acc id => acc.deleteDocIn tid c id) s).getColl tid c =
      ids.foldl (fun l id => eraseA l id) (s.getColl tid c) := by
  induction ids generalizing s with
  | nil => rfl
  | cons i rest ih => simp only [List.foldl_cons, ih, getColl_deleteDocIn_self]

theorem getColl_foldl_deleteDocIn_ne (ids : List String) (s : Store)
    (tid c tid' c' : String) (h : (tid', c') ≠ (tid, c)) :
    (ids.foldl (fun acc id => acc.deleteDocIn tid c id) s).getColl tid' c' =
      s.getColl tid' c' := by
  induction ids generalizing s with
  | nil => rfl
  | cons i rest ih =>
      simp only [List.foldl_cons, ih]
      exact getColl_setColl_ne _ _ _ _ _ _ h

theorem negocioDocs_foldl_deleteDocIn (ids : List String) (s : Store) (tid c : String) :
    (ids.foldl (fun acc id => acc.deleteDocIn tid c id) s).negocioDocs = s.negocioDocs := by
  induction ids generalizing s with
  | nil => rfl
  | cons i rest ih => simp only [List.foldl_cons, ih]; rfl

theorem foldl_eraseA_eq_filter {α β : Type} [DecidableEq α]
    (ks : List α) (l : List (α × β)) :
    ks.foldl (fun acc k => eraseA acc k) l = l.filter (fun kv => decide (kv.1 ∉ ks)) := by
  induction ks generalizing l with
  | nil => simp
  | cons k rest ih =>
      rw [List.foldl_cons, ih]
      simp only [eraseA, List.filter_filter]
      apply List.filter_congr
      intro kv _
      by_cases h1 : kv.1 = k <;> by_cases h2 : kv.1 ∈ rest <;> simp [h1, h2]

theorem foldl_eraseA_map_fst {α β : Type} [DecidableEq α] (l : List (α × β)) :
    (l.map Prod.fst).foldl (fun acc k => eraseA acc k) l = [] := by
  rw [foldl_eraseA_eq_filter]
  apply List.filter_eq_nil_iff.mpr
  intro kv hkv
  simp only [decide_eq_true_eq]
  intro hnot
  exact hnot (List.mem_map.mpr ⟨kv, hkv, rfl⟩)

theorem getColl_clearColl_self (s : Store) (tid c : String) :
    (clearColl s tid c).getColl tid c = [] := by
  unfold clearColl
  rw [getColl_foldl_deleteDocIn, foldl_eraseA_map_fst]

theorem getColl_clearColl_ne (s : Store) (tid c tid' c' : String)
    (h : (tid', c') ≠ (tid, c)) :
    (clearColl s tid c).getColl tid' c' = s.getColl tid' c' :=
  getColl_foldl_deleteDocIn_ne _ _ _ _ _ _ h

theorem negocioDocs_clearColl (s : Store) (tid c : String) :
    (clearColl s tid c).negocioDocs = s.negocioDocs :=
  negocioDocs_foldl_deleteDocIn _ _ _ _

theorem getColl_deleteNegocioDoc (s : Store) (tid tid' c' : String) :
    (s.deleteNegocioDoc tid).getColl tid' c' = s.getColl tid' c' := rfl

/-!  ## Claims -/

/-- C3: `deleteTenant` empties each of the six nested subcollections and
deletes the tenant document; the subcollection cascade never touches the
tenant document (it is removed only by the final step), and afterwards
`getTenantConfig` returns NotFound. -/
theorem C3_deleteTenant_cascade_then_notFound (s : Store) (tid : String) :
    (deleteNegocio s tid).1 = Resp.ok ∧
    (deleteNegocio s tid).2.getColl tid "productos" = [] ∧
    (deleteNegocio s tid).2.getColl tid "servicios" = [] ∧
    (deleteNegocio s tid).2.getColl tid "testimonios" = [] ∧
    (deleteNegocio s tid).2.getColl tid "casosExito" = [] ∧
    (deleteNegocio s tid).2.getColl tid "galeria" = [] ∧
    (deleteNegocio s tid).2.getColl tid "pedidos" = [] ∧
    (deleteNegocioCascade s tid).negocioDocs = s.negocioDocs ∧
    getConfig (deleteNegocio s tid).2 tid = Resp.notFound := by
  have hne : ∀ c1 c2 : String, c1 ≠ c2 → ((tid, c1) : String × String) ≠ (tid, c2) :=
    fun c1 c2 hc h => hc (congrArg Prod.snd h)
  have hcas : deleteNegocioCascade s tid =
      clearColl (clearColl (clearColl (clearColl (clearColl
        (clearColl s tid "productos") tid "servicios") tid "testimonios")
        tid "casosExito") tid "galeria") tid "pedidos" := by
    simp only [deleteNegocioCascade, cascadeCollections, List.foldl]
  refine ⟨rfl, ?_, ?_, ?_, ?_, ?_, ?_, ?_, ?_⟩
  · show ((deleteNegocioCascade s tid).deleteNegocioDoc tid).getColl tid "productos" = []
    rw [getColl_deleteNegocioDoc, hcas,
      getColl_clearColl_ne _ _ _ _ _ (hne _ _ (by decide)),
      getColl_clearColl_ne _ _ _ _ _ (hne _ _ (by decide)),
      getColl_clearColl_ne _ _ _ _ _ (hne _ _ (by decide)),
      getColl_clearColl_ne _ _ _ _ _ (hne _ _ (by decide)),
      getColl_clearColl_ne _ _ _ _ _ (hne _ _ (by decide)),
      getColl_clearColl_self]
  · show ((deleteNegocioCascade s tid).deleteNegocioDoc tid).getColl tid "servicios" = []
    rw [getColl_deleteNegocioDoc, hcas,
      getColl_clearColl_ne _ _ _ _ _ (hne _ _ (by decide)),
      getColl_clearColl_ne _ _ _ _ _ (hne _ _ (by decide)),
      getColl_clearColl_ne _ _ _ _ _ (hne _ _ (by decide)),
      getColl_clearColl_ne _ _ _ _ _ (hne _ _ (by decide)),
      getColl_clearColl_self]
  · show ((deleteNegocioCascade s tid).deleteNegocioDoc tid).getColl tid "testimonios" = []
    rw [getColl_deleteNegocioDoc, hcas,
      getColl_clearColl_ne _ _ _ _ _ (hne _ _ (by decide)),
      getColl_clearColl_ne _ _ _ _ _ (hne _ _ (by decide)),
      getColl_clearColl_ne _ _ _ _ _ (hne _ _ (by decide)),
      getColl_clearColl_self]
  · show ((deleteNegocioCascade s tid).deleteNegocioDoc tid).getColl tid "casosExito" = []
    rw [getColl_deleteNegocioDoc, hcas,
      getColl_clearColl_ne _ _ _ _ _ (hne _ _ (by decide)),
      getColl_clearColl_ne _ _ _ _ _ (hne _ _ (by decide)),
      getColl_clearColl_self]
  · show ((deleteNegocioCascade s tid).deleteNegocioDoc tid).getColl tid "galeria" = []
    rw [getColl_deleteNegocioDoc, hcas,
      getColl_clearColl_ne _ _ _ _ _ (hne _ _ (by decide)),
      getColl_clearColl_self]
  · show ((deleteNegocioCascade s tid).deleteNegocioDoc tid).getColl tid "pedidos" = []
    rw [getColl_deleteNegocioDoc, hcas, getColl_clearColl_self]
  · rw [hcas]
    simp only [negocioDocs_clearColl]
  · show getConfig ((deleteNegocioCascade s tid).deleteNegocioDoc tid) tid = Resp.notFound
    simp [getConfig, getNegocio_deleteNegocioDoc_self]

/-- C6: every order created through the orders create handler is stored with
the system-assigned `estado` field set to `"pendiente"` and a system-assigned
creation timestamp — even when the caller supplied an `estado` of their own. -/
theorem C6_order_create_sets_pending_and_timestamp
    (s : Store) (tid id : String) (body : Doc) (now : Nat) :
    (createPedido s tid id body now).1 = Resp.okId id ∧
    ∃ d, lookupA ((createPedido s tid id body now).2.getColl tid "pedidos") id = some d ∧
      lookupA d "estado" = some (Value.str "pendiente") ∧
      lookupA d "fechaCreacion" = some (Value.time now) := by
  refine ⟨rfl, insertA (insertA body "estado" (Value.str "pendiente"))
      "fechaCreacion" (Value.time now), ?_, ?_, ?_⟩
  · show lookupA ((s.addDoc tid "pedidos" id _).getColl tid "pedidos") id = _
    rw [Store.addDoc, getColl_setColl_self, lookupA_insertA_self]
  · rw [lookupA_insertA_ne _ _ _ _ (by decide), lookupA_insertA_self]
  · rw [lookupA_insertA_self]

/-- C9: `remove` is an unconditional delete: it reports the same success
result whether or not the document exists, and performing it twice leaves the
store in exactly the state of performing it once, with the same result. -/
theorem C9_remove_unconditional_idempotent (s : Store) (tid id : String) :
    (deleteProducto s tid id).1 = Resp.ok ∧
    deleteProducto (deleteProducto s tid id).2 tid id = deleteProducto s tid id := by
  refine ⟨rfl, ?_⟩
  show (Resp.ok, ((s.deleteDocIn tid "productos" id).deleteDocIn tid "productos" id)) = _
  rw [deleteDocIn_deleteDocIn]
  rfl

/-!  ### C1 — authentication -/

/-- A tenant whose `activo` flag is `false` but whose credentials are valid. -/
def inactiveDoc : Doc :=
  [ ("nombre", Value.str "Tienda"),
    ("admin", Value.obj [("user", Value.str "ana"), ("pin", Value.str "1234")]),
    ("activo", Value.bool false) ]

def inactiveStore : Store := ⟨[("n1", inactiveDoc)], []⟩

/-- C1 counterexample: the claim requires `authenticate` to succeed only when
the tenant's `active` flag is true, but the login handler never reads `activo`:
for a stored tenant with `activo = false` and matching credentials, login
succeeds instead of returning Unauthorized. -/
theorem C1_counterexample_active_flag_ignored :
    inactiveStore.getNegocio "n1" = some inactiveDoc ∧
    lookupA inactiveDoc "activo" = some (Value.bool false) ∧
    login inactiveStore "ana" "1234" "n1" = Resp.okLogin "n1" (some (Value.str "Tienda")) :=
  ⟨rfl, rfl, rfl⟩

/-- C1 (amended): for every stored tenant, login succeeds iff the supplied
username and PIN both exactly equal the stored admin credentials
(case-sensitive string equality) — the `activo` flag is not consulted — and
every credential mismatch (wrong username, wrong PIN, or both) yields the same
generic Unauthorized result. -/
theorem C1_login_iff_credentials_match (s : Store) (u p tid : String) (d : Doc)
    (hu : u ≠ "") (hp : p ≠ "") (ht : tid ≠ "") (hd : s.getNegocio tid = some d) :
    (login s u p tid = Resp.okLogin tid (lookupA d "nombre") ↔
      asStr (adminField d "user") = some u ∧ asStr (adminField d "pin") = some p) ∧
    (¬(asStr (adminField d "user") = some u ∧ asStr (adminField d "pin") = some p) →
      login s u p tid = Resp.unauthorized) := by
  have hcond : ¬(u = "" ∨ p = "" ∨ tid = "") := by simp [hu, hp, ht]
  have hlog : login s u p tid =
      (if asStr (adminField d "user") = some u ∧ asStr (adminField d "pin") = some p
       then Resp.okLogin tid (lookupA d "nombre") else Resp.unauthorized) := by
    unfold login
    rw [if_neg hcond, hd]
  by_cases hc : asStr (adminField d "user") = some u ∧ asStr (adminField d "pin") = some p
  · rw [hlog, if_pos hc]
    exact ⟨by simp [hc], fun h => absurd hc h⟩
  · rw [hlog, if_neg hc]
    refine ⟨⟨fun h => absurd h (by simp), fun h => absurd h hc⟩, fun _ => rfl⟩

/-- A tenant with valid credentials and `activo = true`. -/
def activeDoc : Doc :=
  [ ("nombre", Value.str "Tienda"),
    ("admin", Value.obj [("user", Value.str "ana"), ("pin", Value.str "1234")]),
    ("activo", Value.bool true) ]

def activeStore : Store := ⟨[("n1", activeDoc)], []⟩

theorem C1_login_iff_credentials_match_witness :
    (login activeStore "ana" "1234" "n1" = Resp.okLogin "n1" (lookupA activeDoc "nombre") ↔
      asStr (adminField activeDoc "user") = some "ana" ∧
      asStr (adminField activeDoc "pin") = some "1234") ∧
    (¬(asStr (adminField activeDoc "user") = some "ana" ∧
       asStr (adminField activeDoc "pin") = some "1234") →
      login activeStore "ana" "1234" "n1" = Resp.unauthorized) :=
  C1_login_iff_credentials_match activeStore "ana" "1234" "n1" activeDoc
    (by decide) (by decide) (by decide) rfl

/-!  ### C2 — no tenant-existence guard on nested resources -/

def emptyStore : Store := ⟨[], []⟩

/-- C2 counterexample: the claim requires every nested-resource operation to
fail with NotFound before any store write when the tenant document does not
exist.  In the empty store no tenant `"t1"` exists, yet creating a product
succeeds and writes the document — there is no tenant-existence guard at all
in the nested-resource handlers. -/
theorem C2_counterexample_no_tenant_guard :
    emptyStore.getNegocio "t1" = none ∧
    (createProducto emptyStore "t1" "p1" [("nombre", Value.str "Cafe")] 5).1 = Resp.okId "p1" ∧
    lookupA ((createProducto emptyStore "t1" "p1"
        [("nombre", Value.str "Cafe")] 5).2.getColl "t1" "productos") "p1" =
      some [("nombre", Value.str "Cafe"), ("createdAt", Value.time 5)] :=
  ⟨rfl, rfl, rfl⟩

/-- C2 (amended): the nested-resource handlers perform no tenant-existence
check.  Even when no tenant document exists for the path's tenant ID, list
returns the subcollection contents with HTTP 200, create appends the document
and returns its id, remove reports success, and update fails only when the
subcollection document itself is missing. -/
theorem C2_nested_ops_ignore_tenant_existence
    (s : Store) (tid id : String) (body : Doc) (now : Nat)
    (hmissing : s.getNegocio tid = none) :
    listProductos s tid = Resp.okList (s.getColl tid "productos") ∧
    (createProducto s tid id body now).1 = Resp.okId id ∧
    lookupA ((createProducto s tid id body now).2.getColl tid "productos") id =
      some (insertA body "createdAt" (Value.time now)) ∧
    (deleteProducto s tid id).1 = Resp.ok ∧
    (∀ d, lookupA (s.getColl tid "productos") id = some d →
      (updateInColl s tid "productos" id body now).1 = Resp.ok) := by
  refine ⟨rfl, rfl, ?_, rfl, ?_⟩
  · show lookupA ((s.addDoc tid "productos" id _).getColl tid "productos") id = _
    rw [Store.addDoc, getColl_setColl_self, lookupA_insertA_self]
  · intro d hdoc
    simp [updateInColl, Store.updateDocIn, hdoc]

theorem C2_nested_ops_ignore_tenant_existence_witness :
    listProductos emptyStore "t1" = Resp.okList (emptyStore.getColl "t1" "productos") ∧
    (createProducto emptyStore "t1" "p2" [("precio", Value.num 10)] 7).1 = Resp.okId "p2" ∧
    lookupA ((createProducto emptyStore "t1" "p2"
        [("precio", Value.num 10)] 7).2.getColl "t1" "productos") "p2" =
      some (insertA [("precio", Value.num 10)] "createdAt" (Value.time 7)) ∧
    (deleteProducto emptyStore "t1" "p2").1 = Resp.ok ∧
    (∀ d, lookupA (emptyStore.getColl "t1" "productos") "p2" = some d →
      (updateInColl emptyStore "t1" "productos" "p2" [("precio", Value.num 10)] 7).1 = Resp.ok) :=
  C2_nested_ops_ignore_tenant_existence emptyStore "t1" "p2"
    [("precio", Value.num 10)] 7 rfl


/-!  ### Key-set lemmas for `insertA` -/

theorem mem_map_fst_insertA {α β : Type} [DecidableEq α]
    (l : List (α × β)) (k a : α) (v : β)
    (h : a ∈ (insertA l k v).map Prod.fst) : a = k ∨ a ∈ l.map Prod.fst := by
  induction l with
  | nil => simpa [insertA] using h
  | cons hd tl ih =>
      by_cases hk : hd.1 = k
      · simp only [insertA, if_pos hk, List.map_cons, List.mem_cons] at h
        rcases h with h | h
        · exact Or.inl h
        · exact Or.inr (by simp [h])
      · simp only [insertA, if_neg hk, List.map_cons, List.mem_cons] at h
        rcases h with h | h
        · exact Or.inr (by simp [h])
        · rcases ih h with h' | h'
          · exact Or.inl h'
          · exact Or.inr (by simp [h'])

theorem notin_map_fst_insertA {α β : Type} [DecidableEq α]
    (l : List (α × β)) (k a : α) (v : β)
    (ha : a ∉ l.map Prod.fst) (hak : a ≠ k) : a ∉ (insertA l k v).map Prod.fst :=
  fun h => (mem_map_fst_insertA l k a v h).elim hak ha

theorem nodup_map_fst_insertA {α β : Type} [DecidableEq α]
    (l : List (α × β)) (k : α) (v : β)
    (h : (l.map Prod.fst).Nodup) : ((insertA l k v).map Prod.fst).Nodup := by
  induction l with
  | nil => simp [insertA]
  | cons hd tl ih =>
      simp only [List.map_cons, List.nodup_cons] at h
      by_cases hk : hd.1 = k
      · simp only [insertA, if_pos hk, List.map_cons, List.nodup_cons]
        exact ⟨hk ▸ h.1, h.2⟩
      · simp only [insertA, if_neg hk, List.map_cons, List.nodup_cons]
        exact ⟨notin_map_fst_insertA tl k hd.1 v h.1 hk, ih h.2⟩

/-!  ### C4 — partial update merge and create/get round trip -/

/-- C4: updating a nested-resource document with partial fields changes only
the supplied fields and stamps `updatedAt`, leaving every other existing field
unchanged; and a created document, read back by its id, carries exactly the
fields supplied at creation plus the system-assigned creation timestamp (its
id being the lookup key the listing attaches as `id`). -/
theorem C4_update_merge_and_create_roundtrip
    (s : Store) (tid pid : String) (body datos : Doc) (now : Nat) :
    (∀ d, lookupA (s.getColl tid "productos") pid = some d →
      (datos.map Prod.fst).Nodup →
      (updateProducto s tid pid datos now).1 = Resp.ok ∧
      ∃ d', lookupA ((updateProducto s tid pid datos now).2.getColl tid "productos") pid
              = some d' ∧
        lookupA d' "updatedAt" = some (Value.time now) ∧
        (∀ k v, k ≠ "updatedAt" → lookupA datos k = some v → lookupA d' k = some v) ∧
        (∀ k, k ∉ datos.map Prod.fst → k ≠ "updatedAt" → lookupA d' k = lookupA d k)) ∧
    ((createProducto s tid pid body now).1 = Resp.okId pid ∧
      ∃ d', lookupA ((createProducto s tid pid body now).2.getColl tid "productos") pid
              = some d' ∧
        lookupA d' "createdAt" = some (Value.time now) ∧
        (∀ k, k ≠ "createdAt" → lookupA d' k = lookupA body k)) := by
  constructor
  · intro d hdoc hnd
    have hfields : ((insertA datos "updatedAt" (Value.time now)).map Prod.fst).Nodup :=
      nodup_map_fst_insertA datos _ _ hnd
    have hupd : updateProducto s tid pid datos now =
        (Resp.ok, s.setColl tid "productos"
          (insertA (s.getColl tid "productos") pid
            (applyUpdate d (insertA datos "updatedAt" (Value.time now))))) := by
      simp [updateProducto, updateInColl, Store.updateDocIn, hdoc]
    refine ⟨by rw [hupd], applyUpdate d (insertA datos "updatedAt" (Value.time now)),
      ?_, ?_, ?_, ?_⟩
    · rw [hupd]
      show lookupA ((s.setColl tid "productos" _).getColl tid "productos") pid = _
      rw [getColl_setColl_self, lookupA_insertA_self]
    · exact lookupA_applyUpdate_in d _ _ _ hfields (lookupA_insertA_self datos _ _)
    · intro k v hk hkv
      exact lookupA_applyUpdate_in d _ _ _ hfields
        (by rw [lookupA_insertA_ne _ _ _ _ hk]; exact hkv)
    · intro k hk1 hk2
      exact lookupA_applyUpdate_notin d _ _ (notin_map_fst_insertA datos _ _ _ hk1 hk2)
  · refine ⟨rfl, insertA body "createdAt" (Value.time now), ?_, lookupA_insertA_self _ _ _, ?_⟩
    · show lookupA ((s.addDoc tid "productos" pid _).getColl tid "productos") pid = _
      rw [Store.addDoc, getColl_setColl_self, lookupA_insertA_self]
    · intro k hk
      exact lookupA_insertA_ne _ _ _ _ hk

/-- A store with one existing product, for the C4 witness. -/
def c4Store : Store :=
  ⟨[], [(("t", "productos"),
    [("p1", [("nombre", Value.str "Choc"), ("precio", Value.num 10)])])]⟩

theorem C4_update_merge_and_create_roundtrip_witness :
    ((updateProducto c4Store "t" "p1" [("precio", Value.num 20)] 9).1 = Resp.ok ∧
     ∃ d', lookupA ((updateProducto c4Store "t" "p1"
             [("precio", Value.num 20)] 9).2.getColl "t" "productos") "p1" = some d' ∧
       lookupA d' "updatedAt" = some (Value.time 9) ∧
       (∀ k v, k ≠ "updatedAt" →
          lookupA [("precio", Value.num 20)] k = some v → lookupA d' k = some v) ∧
       (∀ k, k ∉ ([("precio", Value.num 20)] : Doc).map Prod.fst → k ≠ "updatedAt" →
          lookupA d' k =
            lookupA [("nombre", Value.str "Choc"), ("precio", Value.num 10)] k)) ∧
    ((createProducto c4Store "t" "p2" [("nombre", Value.str "Te")] 9).1 = Resp.okId "p2" ∧
     ∃ d', lookupA ((createProducto c4Store "t" "p2"
             [("nombre", Value.str "Te")] 9).2.getColl "t" "productos") "p2" = some d' ∧
       lookupA d' "createdAt" = some (Value.time 9) ∧
       (∀ k, k ≠ "createdAt" → lookupA d' k = lookupA [("nombre", Value.str "Te")] k)) :=
  ⟨(C4_update_merge_and_create_roundtrip c4Store "t" "p1" [("nombre", Value.str "Te")]
      [("precio", Value.num 20)] 9).1
      [("nombre", Value.str "Choc"), ("precio", Value.num 10)] rfl (by decide),
   (C4_update_merge_and_create_roundtrip c4Store "t" "p2" [("nombre", Value.str "Te")]
      [("precio", Value.num 20)] 9).2⟩

/-!  ### C7 — section toggles replaced wholesale -/

/-- C7: `PUT /secciones` replaces the tenant's whole `seccionesActivas` toggle
map with the supplied map (the map is one top-level field of the `update`, so
it is not merged field-by-field): afterwards the stored field equals exactly
the supplied map — toggles absent from it are gone — while every other tenant
field except the update timestamp is unchanged. -/
theorem C7_sections_replaced_not_merged
    (s : Store) (tid : String) (d : Doc) (secciones : Value) (now : Nat)
    (hd : s.getNegocio tid = some d) :
    (putSecciones s tid secciones now).1 = Resp.ok ∧
    ∃ d', (putSecciones s tid secciones now).2.getNegocio tid = some d' ∧
      lookupA d' "seccionesActivas" = some secciones ∧
      lookupA d' "updatedAt" = some (Value.time now) ∧
      ∀ k, k ≠ "seccionesActivas" → k ≠ "updatedAt" → lookupA d' k = lookupA d k := by
  have hupd : putSecciones s tid secciones now =
      (Resp.ok, s.setNegocio tid (applyUpdate d
        [("seccionesActivas", secciones), ("updatedAt", Value.time now)])) := by
    simp [putSecciones, Store.updateNegocio, Store.getNegocio] at hd ⊢
    simp [hd]
  refine ⟨by rw [hupd],
    applyUpdate d [("seccionesActivas", secciones), ("updatedAt", Value.time now)],
    ?_, ?_, ?_, ?_⟩
  · rw [hupd]
    show lookupA (insertA s.negocioDocs tid _) tid = _
    rw [lookupA_insertA_self]
  · exact lookupA_applyUpdate_in d _ _ _ (by simp) (by rfl)
  · exact lookupA_applyUpdate_in d _ _ _ (by simp) (by rfl)
  · intro k h1 h2
    exact lookupA_applyUpdate_notin d _ _ (by simp [h1, h2])

/-- A tenant whose old toggle map has a `galeria` toggle that the supplied
replacement map lacks, for the C7 witness. -/
def c7Doc : Doc :=
  [ ("nombre", Value.str "Tienda"),
    ("seccionesActivas", Value.obj [("hero", Value.bool true), ("galeria", Value.bool true)]) ]

def c7Store : Store := ⟨[("n1", c7Doc)], []⟩

theorem C7_sections_replaced_not_merged_witness :
    (putSecciones c7Store "n1" (Value.obj [("hero", Value.bool false)]) 3).1 = Resp.ok ∧
    ∃ d', (putSecciones c7Store "n1"
        (Value.obj [("hero", Value.bool false)]) 3).2.getNegocio "n1" = some d' ∧
      lookupA d' "seccionesActivas" = some (Value.obj [("hero", Value.bool false)]) ∧
      lookupA d' "updatedAt" = some (Value.time 3) ∧
      ∀ k, k ≠ "seccionesActivas" → k ≠ "updatedAt" → lookupA d' k = lookupA c7Doc k :=
  C7_sections_replaced_not_merged c7Store "n1" c7Doc
    (Value.obj [("hero", Value.bool false)]) 3 rfl

/-!  ### C10 — order status update persists only `estado` -/

/-- C10: the order status handler destructures only `estado` from the request
body, so the update persists exactly `estado` plus the update timestamp: every
other caller-supplied body field is ignored and every other existing field of
the order document is unchanged — unlike the other nested-resource updates,
which merge the whole body. -/
theorem C10_order_status_update_only_estado
    (s : Store) (tid pid : String) (body d : Doc) (v : Value) (now : Nat)
    (hb : lookupA body "estado" = some v)
    (hd : lookupA (s.getColl tid "pedidos") pid = some d) :
    (putPedido s tid pid body now).1 = Resp.ok ∧
    ∃ d', lookupA ((putPedido s tid pid body now).2.getColl tid "pedidos") pid = some d' ∧
      lookupA d' "estado" = some v ∧
      lookupA d' "updatedAt" = some (Value.time now) ∧
      ∀ k, k ≠ "estado" → k ≠ "updatedAt" → lookupA d' k = lookupA d k := by
  have hupd : putPedido s tid pid body now =
      (Resp.ok, s.setColl tid "pedidos"
        (insertA (s.getColl tid "pedidos") pid
          (applyUpdate d [("estado", v), ("updatedAt", Value.time now)]))) := by
    simp [putPedido, hb, Store.updateDocIn, hd]
  refine ⟨by rw [hupd], applyUpdate d [("estado", v), ("updatedAt", Value.time now)],
    ?_, ?_, ?_, ?_⟩
  · rw [hupd]
    show lookupA ((s.setColl tid "pedidos" _).getColl tid "pedidos") pid = _
    rw [getColl_setColl_self, lookupA_insertA_self]
  · exact lookupA_applyUpdate_in d _ _ _ (by simp) (by rfl)
  · exact lookupA_applyUpdate_in d _ _ _ (by simp) (by rfl)
  · intro k h1 h2
    exact lookupA_applyUpdate_notin d _ _ (by simp [h1, h2])

/-- An order with an existing `cliente` field, updated with a body that sneaks
in an extra `total` field next to `estado`, for the C10 witness. -/
def c10Store : Store :=
  ⟨[], [(("t", "pedidos"),
    [("o1", [("cliente", Value.str "Eva"), ("estado", Value.str "pendiente")])])]⟩

theorem C10_order_status_update_only_estado_witness :
    (putPedido c10Store "t" "o1"
        [("estado", Value.str "enviado"), ("total", Value.num 99)] 4).1 = Resp.ok ∧
    ∃ d', lookupA ((putPedido c10Store "t" "o1"
        [("estado", Value.str "enviado"), ("total", Value.num 99)] 4).2.getColl
          "t" "pedidos") "o1" = some d' ∧
      lookupA d' "estado" = some (Value.str "enviado") ∧
      lookupA d' "updatedAt" = some (Value.time 4) ∧
      ∀ k, k ≠ "estado" → k ≠ "updatedAt" →
        lookupA d' k =
          lookupA [("cliente", Value.str "Eva"), ("estado", Value.str "pendiente")] k :=
  C10_order_status_update_only_estado c10Store "t" "o1"
    [("estado", Value.str "enviado"), ("total", Value.num 99)]
    [("cliente", Value.str "Eva"), ("estado", Value.str "pendiente")]
    (Value.str "enviado") 4 rfl rfl

/-!  ### C5 — listing order -/

theorem listOrdenAsc_perm_sorted (s : Store) (tid c : String)
    (h : ∀ kv ∈ s.getColl tid c, (ordenOf kv.2).isSome = true) :
    List.Perm (listOrdenAsc s tid c) (s.getColl tid c) ∧
    (listOrdenAsc s tid c).Pairwise
      (fun a b => (ordenOf a.2).getD 0 ≤ (ordenOf b.2).getD 0) := by
  have hf : (s.getColl tid c).filter (fun kv => (ordenOf kv.2).isSome) = s.getColl tid c :=
    List.filter_eq_self.mpr h
  constructor
  · rw [listOrdenAsc, hf]
    exact perm_sortByKey _ _
  · exact pairwise_sortByKey _ _

theorem listFechaDesc_perm_sorted (s : Store) (tid c : String)
    (h : ∀ kv ∈ s.getColl tid c, (fechaOf kv.2).isSome = true) :
    List.Perm (listFechaDesc s tid c) (s.getColl tid c) ∧
    (listFechaDesc s tid c).Pairwise
      (fun a b => (fechaOf b.2).getD 0 ≤ (fechaOf a.2).getD 0) := by
  have hf : (s.getColl tid c).filter (fun kv => (fechaOf kv.2).isSome) = s.getColl tid c :=
    List.filter_eq_self.mpr h
  constructor
  · rw [listFechaDesc, hf]
    exact perm_sortByKey _ _
  · have hp := pairwise_sortByKey (fun kv : String × Doc => -((fechaOf kv.2).getD 0))
      ((s.getColl tid c).filter (fun kv => (fechaOf kv.2).isSome))
    exact List.Pairwise.imp (fun hab => neg_le_neg_iff.mp hab) hp

/-- C5: services, testimonials, success cases and gallery images are listed
as a permutation of the stored documents sorted ascending by the supplied
`orden` field; orders are listed sorted descending by creation timestamp;
products are listed unsorted, exactly as stored. -/
theorem C5_listing_order (s : Store) (tid : String) :
    ((∀ kv ∈ s.getColl tid "servicios", (ordenOf kv.2).isSome = true) →
      List.Perm (listOrdenAsc s tid "servicios") (s.getColl tid "servicios") ∧
      (listOrdenAsc s tid "servicios").Pairwise
        (fun a b => (ordenOf a.2).getD 0 ≤ (ordenOf b.2).getD 0)) ∧
    ((∀ kv ∈ s.getColl tid "testimonios", (ordenOf kv.2).isSome = true) →
      List.Perm (listOrdenAsc s tid "testimonios") (s.getColl tid "testimonios") ∧
      (listOrdenAsc s tid "testimonios").Pairwise
        (fun a b => (ordenOf a.2).getD 0 ≤ (ordenOf b.2).getD 0)) ∧
    ((∀ kv ∈ s.getColl tid "casosExito", (ordenOf kv.2).isSome = true) →
      List.Perm (listOrdenAsc s tid "casosExito") (s.getColl tid "casosExito") ∧
      (listOrdenAsc s tid "casosExito").Pairwise
        (fun a b => (ordenOf a.2).getD 0 ≤ (ordenOf b.2).getD 0)) ∧
    ((∀ kv ∈ s.getColl tid "galeria", (ordenOf kv.2).isSome = true) →
      List.Perm (listOrdenAsc s tid "galeria") (s.getColl tid "galeria") ∧
      (listOrdenAsc s tid "galeria").Pairwise
        (fun a b => (ordenOf a.2).getD 0 ≤ (ordenOf b.2).getD 0)) ∧
    ((∀ kv ∈ s.getColl tid "pedidos", (fechaOf kv.2).isSome = true) →
      List.Perm (listFechaDesc s tid "pedidos") (s.getColl tid "pedidos") ∧
      (listFechaDesc s tid "pedidos").Pairwise
        (fun a b => (fechaOf b.2).getD 0 ≤ (fechaOf a.2).getD 0)) ∧
    listProductos s tid = Resp.okList (s.getColl tid "productos") ∧
    listServicios s tid = Resp.okList (listOrdenAsc s tid "servicios") ∧
    listTestimonios s tid = Resp.okList (listOrdenAsc s tid "testimonios") ∧
    listCasosExito s tid = Resp.okList (listOrdenAsc s tid "casosExito") ∧
    listGaleria s tid = Resp.okList (listOrdenAsc s tid "galeria") ∧
    listPedidos s tid = Resp.okList (listFechaDesc s tid "pedidos") :=
  ⟨listOrdenAsc_perm_sorted s tid "servicios",
   listOrdenAsc_perm_sorted s tid "testimonios",
   listOrdenAsc_perm_sorted s tid "casosExito",
   listOrdenAsc_perm_sorted s tid "galeria",
   listFechaDesc_perm_sorted s tid "pedidos",
   rfl, rfl, rfl, rfl, rfl, rfl⟩

/-- Store with services of `orden` 3, 1, 2 and orders created at times
1 < 2 < 3, realising the spec's sorting example. -/
def c5Store : Store :=
  ⟨[], [(("t", "servicios"),
         [("a", [("orden", Value.num 3)]),
          ("b", [("orden", Value.num 1)]),
          ("c", [("orden", Value.num 2)])]),
        (("t", "pedidos"),
         [("p1", [("fechaCreacion", Value.time 1)]),
          ("p2", [("fechaCreacion", Value.time 2)]),
          ("p3", [("fechaCreacion", Value.time 3)])])]⟩

theorem C5_listing_order_witness :
    (List.Perm (listOrdenAsc c5Store "t" "servicios") (c5Store.getColl "t" "servicios") ∧
      (listOrdenAsc c5Store "t" "servicios").Pairwise
        (fun a b => (ordenOf a.2).getD 0 ≤ (ordenOf b.2).getD 0)) ∧
    (List.Perm (listFechaDesc c5Store "t" "pedidos") (c5Store.getColl "t" "pedidos") ∧
      (listFechaDesc c5Store "t" "pedidos").Pairwise
        (fun a b => (fechaOf b.2).getD 0 ≤ (fechaOf a.2).getD 0)) ∧
    listOrdenAsc c5Store "t" "servicios" =
      [("b", [("orden", Value.num 1)]), ("c", [("orden", Value.num 2)]),
       ("a", [("orden", Value.num 3)])] ∧
    listFechaDesc c5Store "t" "pedidos" =
      [("p3", [("fechaCreacion", Value.time 3)]), ("p2", [("fechaCreacion", Value.time 2)]),
       ("p1", [("fechaCreacion", Value.time 1)])] :=
  ⟨(C5_listing_order c5Store "t").1 (by decide),
   (C5_listing_order c5Store "t").2.2.2.2.1 (by decide),
   rfl, rfl⟩

/-!  ### C8 — credential generation -/

/-- C8 counterexample: on the name "Café Luna" the code's derivation deletes
the accented letter and the space outright, producing `"cafluna"`, while the
derivation the spec describes (lowercase, strip diacritics, collapse
non-alphanumerics to separators, cap length) produces `"cafe-luna"`: the code
neither strips diacritics nor introduces separators. -/
theorem C8_counterexample_username_derivation :
    generateUser "Café Luna" 0 = "cafluna" ∧
    specDeriveUser "Café Luna" = "cafe-luna" ∧
    generateUser "Café Luna" 0 ≠ specDeriveUser "Café Luna" :=
  ⟨rfl, rfl, by decide⟩

/-- C8 (amended): the generated PIN is the decimal string of a value drawn
uniformly from 1000–9999 (the map from the uniform randomness is a bijection
onto that range and every value has exactly four decimal digits), and the
generated tenant ID, username and PIN are returned in the creation response;
the username, however, is the display name lowercased with every character
outside `[a-z0-9]` deleted (accented letters removed, not transliterated; no
separators) and truncated to 10 characters, falling back to
`'user' + Date.now()` when nothing remains. -/
theorem C8_credentials_generation (nombre email negocioID : String)
    (k nowMs : Nat) (s : Store)
    (hslug : substring10 (stripNonAlnum (jsToLowerCase nombre)) ≠ "")
    (hn : nombre ≠ "") (he : email ≠ "") :
    generateUser nombre nowMs = substring10 (stripNonAlnum (jsToLowerCase nombre)) ∧
    (generateUser nombre nowMs).length ≤ 10 ∧
    (∀ c ∈ (generateUser nombre nowMs).data, isLowerAlnum c = true) ∧
    1000 ≤ generatePinNat k ∧ generatePinNat k ≤ 9999 ∧
    (Nat.digits 10 (generatePinNat k)).length = 4 ∧
    generatePin k = toString (generatePinNat k) ∧
    (∀ k1 k2, k1 < 9000 → k2 < 9000 → generatePinNat k1 = generatePinNat k2 → k1 = k2) ∧
    (∀ m, 1000 ≤ m → m ≤ 9999 → ∃ j, j < 9000 ∧ generatePinNat j = m) ∧
    (createNegocio s nombre email negocioID k nowMs).1 =
      Resp.okCreated negocioID (generateUser nombre nowMs) (generatePin k) := by
  have hmod : k % 9000 < 9000 := Nat.mod_lt k (by norm_num)
  have h1 : 1000 ≤ generatePinNat k := Nat.le_add_right 1000 _
  have h2 : generatePinNat k ≤ 9999 := by unfold generatePinNat; omega
  have heq : generateUser nombre nowMs =
      substring10 (stripNonAlnum (jsToLowerCase nombre)) := by
    simp only [generateUser]
    rw [if_neg hslug]
  refine ⟨heq, ?_, ?_, h1, h2, ?_, rfl, ?_, ?_, ?_⟩
  · rw [heq]
    show ((stripNonAlnum (jsToLowerCase nombre)).data.take 10).length ≤ 10
    exact List.length_take_le 10 _
  · intro c hc
    rw [heq] at hc
    have hc' : c ∈ (jsToLowerCase nombre).data.filter isLowerAlnum :=
      List.take_subset 10 _ hc
    exact (List.mem_filter.mp hc').2
  · have hlog : Nat.log 10 (generatePinNat k) = 3 := by
      have e3 : (10 : Nat) ^ 3 = 1000 := by norm_num
      have e4 : (10 : Nat) ^ (3 + 1) = 10000 := by norm_num
      exact Nat.log_eq_of_pow_le_of_lt_pow (e3 ▸ h1) (e4 ▸ (by omega))
    rw [Nat.digits_len 10 _ (by norm_num) (by omega), hlog]
  · intro k1 k2 hk1 hk2 hk
    unfold generatePinNat at hk
    rw [Nat.mod_eq_of_lt hk1, Nat.mod_eq_of_lt hk2] at hk
    omega
  · intro m hm1 hm2
    refine ⟨m - 1000, by omega, ?_⟩
    unfold generatePinNat
    rw [Nat.mod_eq_of_lt (by omega)]
    omega
  · simp [createNegocio, hn, he]

theorem C8_credentials_generation_witness :
    generateUser "Café Luna" 7 =
      substring10 (stripNonAlnum (jsToLowerCase "Café Luna")) ∧
    (generateUser "Café Luna" 7).length ≤ 10 ∧
    (∀ c ∈ (generateUser "Café Luna" 7).data, isLowerAlnum c = true) ∧
    1000 ≤ generatePinNat 4500 ∧ generatePinNat 4500 ≤ 9999 ∧
    (Nat.digits 10 (generatePinNat 4500)).length = 4 ∧
    generatePin 4500 = toString (generatePinNat 4500) ∧
    (∀ k1 k2, k1 < 9000 → k2 < 9000 → generatePinNat k1 = generatePinNat k2 → k1 = k2) ∧
    (∀ m, 1000 ≤ m → m ≤ 9999 → ∃ j, j < 9000 ∧ generatePinNat j = m) ∧
    (createNegocio emptyStore "Café Luna" "a@b.com" "neg_abc123" 4500 7).1 =
      Resp.okCreated "neg_abc123" (generateUser "Café Luna" 7) (generatePin 4500) :=
  C8_credentials_generation "Café Luna" "a@b.com" "neg_abc123" 4500 7 emptyStore
    (by decide) (by decide) (by decide)

end ApiWeb
